import Mathlib

/-
Verification of the pier lifecycle core of the native-planet orchestrator.

The Rust sources under src/ are shallowly embedded below.  Filesystem state
is an explicit value threaded through the stateful operations (async fs
calls become pure state transitions), fallible operations return Except,
and behaviour of external collaborators (libarchive, the external ship
process, the HTTP control channel) is supplied through an explicit
environment of oracle functions.  Rust panics (unwrap on None, todo bodies)
are modelled as distinguished error outcomes of the Except monad.
-/

set_option maxRecDepth 4000

/- ## Runtime version (src/urbit.rs, UrbitVersion) -/

inductive UrbitVersion where
  | urbitV1_0 | urbitV1_1 | urbitV1_2 | urbitV1_3 | urbitV1_4
  | urbitV1_5 | urbitV1_6 | urbitV1_7 | urbitV1_8 | urbitV1_9
deriving DecidableEq, Repr

/-- Embeds src/urbit.rs, impl Default for UrbitVersion. -/
def UrbitVersion.defaultVersion : UrbitVersion := .urbitV1_9

/-- Embeds src/urbit.rs, impl Into String for UrbitVersion.  The source
maps UrbitV1_0 to "v1.1"; this is reproduced verbatim. -/
def urbitVersionToString : UrbitVersion → String
  | .urbitV1_0 => "v1.1"
  | .urbitV1_1 => "v1.1"
  | .urbitV1_2 => "v1.2"
  | .urbitV1_3 => "v1.3"
  | .urbitV1_4 => "v1.4"
  | .urbitV1_5 => "v1.5"
  | .urbitV1_6 => "v1.6"
  | .urbitV1_7 => "v1.7"
  | .urbitV1_8 => "v1.8"
  | .urbitV1_9 => "v1.9"

/-- Embeds src/urbit.rs, impl TryFrom of a string slice for UrbitVersion
(the error case is reported as none; the Deserialize impl converts the
TryFrom error into a serde error, so only the option structure matters). -/
def urbitVersionFromString (v : String) : Option UrbitVersion :=
  if v = "1.0" ∨ v = "v1.0" then some .urbitV1_0
  else if v = "1.1" ∨ v = "v1.1" then some .urbitV1_1
  else if v = "1.2" ∨ v = "v1.2" then some .urbitV1_2
  else if v = "1.3" ∨ v = "v1.3" then some .urbitV1_3
  else if v = "1.4" ∨ v = "v1.4" then some .urbitV1_4
  else if v = "1.5" ∨ v = "v1.5" then some .urbitV1_5
  else if v = "1.6" ∨ v = "v1.6" then some .urbitV1_6
  else if v = "1.7" ∨ v = "v1.7" then some .urbitV1_7
  else if v = "1.8" ∨ v = "v1.8" then some .urbitV1_8
  else if v = "1.9" ∨ v = "v1.9" then some .urbitV1_9
  else none

/- ## Pier configuration (src/ship.rs, PierConfig) -/

/-- Embeds src/ship.rs PierConfig: runtime version, stable identifier
(the hyphenated UUID is modelled as a string) and optional name. -/
structure PierConfig where
  runtimeVersion : UrbitVersion
  id : String
  name : Option String
deriving DecidableEq, Repr

/-- Serialize impl for UrbitVersion writes the Display string (which is the
Into String conversion); Deserialize parses it back through TryFrom.  This
composition is the persisted round trip for the version field. -/
def versionRoundTrip (v : UrbitVersion) : Option UrbitVersion :=
  urbitVersionFromString (urbitVersionToString v)

/-- Round trip of a whole PierConfig through its serde representation: the
id and optional name fields are plain strings and round-trip verbatim; the
runtime version goes through its string form. -/
def configRoundTrip (c : PierConfig) : Option PierConfig :=
  match versionRoundTrip c.runtimeVersion with
  | none => none
  | some v => some { runtimeVersion := v, id := c.id, name := c.name }

/- ## Paths and the filesystem model -/

/-- Paths relative to the harbor root, as component lists. -/
abbrev FsPath := List String

def pathToString (p : FsPath) : String := String.intercalate "/" p

/-- pathStartsWith q p is true when q = p ++ rest for some rest. -/
def pathStartsWith : FsPath → FsPath → Bool
  | _, [] => true
  | [], _ :: _ => false
  | a :: restA, b :: restB => a == b && pathStartsWith restA restB

/-- External failures supplied by the environment oracles (the archive
decoder, the external ship process, the control-channel HTTP transport). -/
inductive ExtFail where
  | fail (msg : String)
deriving DecidableEq, Repr

/-- Error outcomes of the embedded operations.  Constructors mirror the
error sources in the Rust code: io errors, anyhow messages, serde decode
failures, panics, the InvalidPierArchiveError type, and propagated external
failures.  illegalStateTransition names the error the specification
describes for precondition violations; no operation in the source produces
it. -/
inductive RErr where
  | ioNotFound (p : FsPath)
  | ioAlreadyExists (p : FsPath)
  | ioInvalidData (p : FsPath)
  | anyhowMsg (s : String)
  | serdeDecode
  | panicTodo
  | panicUnwrapNone
  | invalidPierArchive
  | external (f : ExtFail)
  | illegalStateTransition
deriving DecidableEq, Repr

/-- File contents, at the granularity the embedded code observes them:
plain text (the ports descriptor), bytes that serde-decode to a pier
configuration, bytes that fail to serde-decode as a configuration, and
opaque byte blobs (keyfile and archive payloads). -/
inductive FileContent where
  | text (s : String)
  | config (c : PierConfig)
  | badConfig
  | blob (n : Nat)
deriving DecidableEq, Repr

/-- The filesystem under the harbor root: a set of directories and a map
from file paths to contents, both as lists. -/
structure Fs where
  dirs : List FsPath
  files : List (FsPath × FileContent)
deriving DecidableEq, Repr

def Fs.isDir (fs : Fs) (p : FsPath) : Bool := fs.dirs.contains p

def Fs.isFile (fs : Fs) (p : FsPath) : Bool := fs.files.any (fun e => e.1 == p)

def Fs.pathExists (fs : Fs) (p : FsPath) : Bool := fs.isDir p || fs.isFile p

def Fs.readFile (fs : Fs) (p : FsPath) : Except RErr FileContent :=
  match fs.files.find? (fun e => e.1 == p) with
  | some e => .ok e.2
  | none => .error (.ioNotFound p)

/-- fs::read_to_string as used on the ports descriptor; non-text contents
are reported as invalid data (no call site reads a non-text file). -/
def Fs.readToString (fs : Fs) (p : FsPath) : Except RErr String :=
  match fs.readFile p with
  | .ok (.text s) => .ok s
  | .ok _ => .error (.ioInvalidData p)
  | .error e => .error e

/-- fs::create_dir: fails when the path already exists or the parent is not
a directory. -/
def Fs.createDir (fs : Fs) (p : FsPath) : Except RErr Fs :=
  if fs.pathExists p then .error (.ioAlreadyExists p)
  else if fs.isDir p.dropLast then .ok { fs with dirs := p :: fs.dirs }
  else .error (.ioNotFound p.dropLast)

/-- OpenOptions create_new + write: fails when the path already exists or
the parent is not a directory, otherwise writes the content. -/
def Fs.createNewFile (fs : Fs) (p : FsPath) (c : FileContent) : Except RErr Fs :=
  if fs.pathExists p then .error (.ioAlreadyExists p)
  else if fs.isDir p.dropLast then .ok { fs with files := (p, c) :: fs.files }
  else .error (.ioNotFound p.dropLast)

/-- fs::remove_file: fails when no file exists at the path. -/
def Fs.removeFile (fs : Fs) (p : FsPath) : Except RErr Fs :=
  if fs.isFile p then
    .ok { fs with files := fs.files.filter (fun e => !(e.1 == p)) }
  else .error (.ioNotFound p)

/-- fs::remove_dir_all: removes the directory and everything under it. -/
def Fs.removeDirAll (fs : Fs) (p : FsPath) : Except RErr Fs :=
  if fs.isDir p then
    .ok { dirs := fs.dirs.filter (fun q => !(pathStartsWith q p)),
          files := fs.files.filter (fun e => !(pathStartsWith e.1 p)) }
  else .error (.ioNotFound p)

def replaceUnder (oldP newP q : FsPath) : FsPath :=
  if pathStartsWith q oldP then newP ++ q.drop oldP.length else q

/-- fs::rename on a directory: moves the whole subtree; fails when the
source is missing, the target exists, or the target parent is missing. -/
def Fs.renameDir (fs : Fs) (oldP newP : FsPath) : Except RErr Fs :=
  if fs.isDir oldP then
    if fs.pathExists newP then .error (.ioAlreadyExists newP)
    else if fs.isDir newP.dropLast then
      .ok { dirs := fs.dirs.map (replaceUnder oldP newP),
            files := fs.files.map (fun e => (replaceUnder oldP newP e.1, e.2)) }
    else .error (.ioNotFound newP.dropLast)
  else .error (.ioNotFound oldP)

/- ## FileLock (src/filelock.rs) -/

structure FileLock where
  path : FsPath
  released : Bool
deriving DecidableEq, Repr

/-- Embeds FileLock::try_acquire.  After the existence check, the source
executes the statement assigning fs::File::create(&path) to the wildcard
pattern: the returned future is dropped without being awaited, so no file
is ever created and the filesystem is returned unchanged. -/
def FileLock.tryAcquire (fs : Fs) (p : FsPath) : Fs × Option FileLock :=
  if fs.pathExists p then (fs, none)
  else (fs, some { path := p, released := false })

/-- Embeds FileLock::release: removes the marker file (failing when it does
not exist) and marks the lock released. -/
def FileLock.releaseLock (fs : Fs) (l : FileLock) : Fs × Except RErr FileLock :=
  match fs.removeFile l.path with
  | .ok fs2 => (fs2, .ok { l with released := true })
  | .error e => (fs, .error e)

/- ## TcpPortIssuer (src/net_util.rs) -/

structure TcpPortIssuer where
  start : Nat
  stop : Nat
deriving DecidableEq, Repr

/-- Scan of the range iterator inside get_port: the first candidate from
start (for fuel candidates) on which the bind probe succeeds. -/
def firstAvail (avail : Nat → Bool) : Nat → Nat → Option Nat
  | _, 0 => none
  | start, fuel + 1 =>
    if avail start then some start else firstAvail avail (start + 1) fuel

/-- Embeds TcpPortIssuer::get_port.  avail is the loopback bind probe for
this call.  On success the cursor advances past the returned port; on
exhaustion the consumed range iterator leaves the cursor at the range end
and the call fails with the "no ports available!" message. -/
def TcpPortIssuer.getPort (avail : Nat → Bool) (iss : TcpPortIssuer) :
    TcpPortIssuer × Except RErr Nat :=
  match firstAvail avail iss.start (iss.stop - iss.start) with
  | some p => ({ start := p + 1, stop := iss.stop }, .ok p)
  | none => ({ start := max iss.start iss.stop, stop := iss.stop },
             .error (.anyhowMsg "no ports available!"))

/- ## Ports descriptor parsing (src/ship.rs, Ship::new) -/

/-- listBeginsWith l p is true when l = p ++ rest for some rest. -/
def listBeginsWith : List Char → List Char → Bool
  | _, [] => true
  | [], _ :: _ => false
  | a :: restA, b :: restB => a == b && listBeginsWith restA restB

/-- Rust str::ends_with, computed on the character lists. -/
def lineEndsWith (l suffix : List Char) : Bool :=
  listBeginsWith l.reverse suffix.reverse

/-- Rust u16::from_str composed with .ok(): an optional leading plus sign,
one or more ascii digits, and the value must fit in 16 bits. -/
def parseU16 (cs : List Char) : Option Nat :=
  let t := match cs with
    | '+' :: rest => rest
    | other => other
  if t.isEmpty then none
  else if t.all Char.isDigit then
    let n := t.foldl (fun acc c => acc * 10 + (c.toNat - 48)) 0
    if n < 65536 then some n else none
  else none

/-- Rust char::is_ascii_whitespace. -/
def isAsciiWs (c : Char) : Bool :=
  c == ' ' || c == '\t' || c == '\n' || c == '\r' || c == '\x0c'

/-- Split a character list at every character satisfying p; the separators
are consumed and empty segments are kept (as str::split does). -/
def listSplitOnPred (p : Char → Bool) : List Char → List (List Char)
  | [] => [[]]
  | c :: rest =>
    let r := listSplitOnPred p rest
    if p c then [] :: r
    else
      match r with
      | [] => [[c]]
      | h :: t => (c :: h) :: t

/-- Rust str::split_ascii_whitespace collected to a list of tokens. -/
def splitAsciiWs (cs : List Char) : List (List Char) :=
  (listSplitOnPred isAsciiWs cs).filter (fun t => !t.isEmpty)

def stripCr (l : List Char) : List Char :=
  match l.reverse with
  | '\r' :: rest => rest.reverse
  | _ => l

/-- Rust str::lines collected to a list: split at newlines, strip one
carriage return before each newline, and drop a trailing empty fragment
produced by a final newline. -/
def rustLines (cs : List Char) : List (List Char) :=
  match (listSplitOnPred (fun c => c == '\n') cs).reverse with
  | [] => []
  | last :: revInit =>
    (revInit.reverse.map stripCr) ++ (if last.isEmpty then [] else [last])

def loopbackChars : List Char := "loopback".data

/-- Embeds the iterator chain in Ship::new that extracts the loopback
control port from the ports descriptor: filter lines ending in "loopback",
map to the first ascii-whitespace token, take the first element, flatten,
and parse as u16. -/
def lensPortFromPortsdesc (desc : String) : Option Nat :=
  match (((rustLines desc.data).filter (fun l => lineEndsWith l loopbackChars)).map
      (fun l => (splitAsciiWs l).head?)).head? with
  | none => none
  | some t => t.bind parseU16

/-- Rust str::trim, computed on the character list. -/
def trimChars (cs : List Char) : List Char :=
  ((cs.dropWhile Char.isWhitespace).reverse.dropWhile Char.isWhitespace).reverse

/- ## JSON values, start modes, and the environment of oracles -/

/-- serde_json::Value, as matched by Ship::dojo. -/
inductive Json where
  | null
  | bool (b : Bool)
  | num (n : Int)
  | str (s : String)
  | arr (elems : List Json)
  | obj (fields : List (String × Json))

/-- Modelled from the spec: the start mode handed to the external process
primitive (resume | boot-comet | boot-from-keyfile+name); the crate::runtime
module that declares it is not under src/. -/
inductive StartMode where
  | resume (pierPath : FsPath)
  | bootComet (pierPath : FsPath)
  | bootKeyfile (keyfilePath : FsPath) (name : String) (pierPath : FsPath)

/-- The environment of external collaborators.  extract is the libarchive
worker offload (it may transform the filesystem even on failure); exec is
modelled from the spec: the process start primitive of the crate::runtime
module (not under src/), parameterized by start mode and the two ports, and
returning the filesystem as left by the started process (which materializes
the pier data directory and the ports descriptor); kill is process
termination; dojoHttp is the control-channel POST, returning the serde
parse result of the response body (none = body is not valid JSON). -/
structure Env where
  extract : FsPath → FsPath → Fs → Fs × Except ExtFail Nat
  exec : StartMode → Nat → Nat → Fs → Except ExtFail Fs
  kill : Except ExtFail Unit
  dojoHttp : Nat → String → Except ExtFail (Option Json)

/- ## PierState (src/ship.rs) -/

structure PierState where
  id : String
  name : Option String
  config : PierConfig
  metaPath : FsPath
  dryDocked : Bool
  initialized : Bool
  comet : Bool
  filelock : FileLock
deriving DecidableEq, Repr

def configPathGivenMeta (m : FsPath) : FsPath := m ++ ["config.json"]

def lockfilePathGivenMeta (m : FsPath) : FsPath := m ++ ["lockfile"]

def PierState.pierPath (p : PierState) : FsPath := p.metaPath ++ ["pier"]

def PierState.keyfilePath (p : PierState) : FsPath := p.metaPath ++ ["keyfile"]

def PierState.archivePathOf (p : PierState) : FsPath := p.metaPath ++ ["archive"]

def PierState.unpackPathOf (p : PierState) : FsPath := p.metaPath ++ ["unpack"]

/-- Harbor::port_path: the "port" (live zone) subdirectory, which must be a
directory. -/
def harborPortPath (fs : Fs) : Except RErr FsPath :=
  if fs.isDir ["port"] then .ok ["port"]
  else .error (.anyhowMsg ("Harbor port path is not a directory: " ++ pathToString ["port"]))

/-- Harbor::dry_dock_path: the "dry_dock" (staging zone) subdirectory. -/
def harborDryDockPath (fs : Fs) : Except RErr FsPath :=
  if fs.isDir ["dry_dock"] then .ok ["dry_dock"]
  else .error (.anyhowMsg ("Harbor dry dock path is not a directory: " ++ pathToString ["dry_dock"]))

/-- PierState::load_config: read config.json and serde-decode it. -/
def loadConfig (fs : Fs) (metaPath : FsPath) : Except RErr PierConfig :=
  match fs.readFile (configPathGivenMeta metaPath) with
  | .error e => .error e
  | .ok (.config c) => .ok c
  | .ok _ => .error .serdeDecode

/-- Embeds PierState::load_from_port (the live-zone load by directory
name).  The unused leading path parameter of the source is omitted.  The
source loads the configuration twice; both loads are kept. -/
def PierState.loadFromPort (fs : Fs) (name : String) : Except RErr PierState :=
  match harborPortPath fs with
  | .error e => .error e
  | .ok pp =>
    let metaPath := pp ++ [name]
    if !(fs.isDir metaPath) then
      .error (.anyhowMsg ("Pier " ++ name ++ " does not exist in harbor port"))
    else
      match FileLock.tryAcquire fs (lockfilePathGivenMeta metaPath) with
      | (_, none) =>
        .error (.anyhowMsg ("Attempted to acquire multiple handles for the same pier: " ++
          pathToString metaPath))
      | (_, some lock) =>
        match loadConfig fs metaPath with
        | .error e => .error e
        | .ok config =>
          match config.name with
          | none =>
            .error (.anyhowMsg "attempted to load uninitialized pier from port; only dry dock piers may be uninitialized")
          | some configName =>
            if configName != name then
              .error (.anyhowMsg "mismatch between name of pier directory and the @p field in its config")
            else
              match loadConfig fs metaPath with
              | .error e => .error e
              | .ok config2 =>
                let result : PierState :=
                  { id := config2.id, name := some name, config := config2,
                    metaPath := metaPath, dryDocked := false, comet := false,
                    initialized := true, filelock := lock }
                if !(fs.pathExists result.pierPath) then
                  .error (.anyhowMsg "attempted to load uninitialized pier from port; only dry dock piers may be uninitialized")
                else .ok result

/-- Embeds PierState::load_from_dry_dock (the staging-zone load by
identifier; the hyphenated UUID is the directory name). -/
def PierState.loadFromDryDock (fs : Fs) (id : String) : Except RErr PierState :=
  match harborDryDockPath fs with
  | .error e => .error e
  | .ok dd =>
    let metaPath := dd ++ [id]
    if !(fs.isDir metaPath) then
      .error (.anyhowMsg ("Pier " ++ id ++ " does not exist in harbor dry dock"))
    else
      match FileLock.tryAcquire fs (lockfilePathGivenMeta metaPath) with
      | (_, none) =>
        .error (.anyhowMsg ("Attempted to acquire multiple handles for the same pier: " ++
          pathToString metaPath))
      | (_, some lock) =>
        match loadConfig fs metaPath with
        | .error e => .error e
        | .ok config =>
          if config.id != id then
            .error (.anyhowMsg "mismatch between id of pier directory and the id field in its config")
          else
            let result : PierState :=
              { id := id, name := config.name, config := config,
                metaPath := metaPath, dryDocked := true, comet := false,
                initialized := false, filelock := lock }
            .ok { result with initialized := fs.pathExists result.pierPath }

/-- Embeds find_extracted_pier: the source body is a todo macro, which
panics unconditionally; the panic is a distinguished error outcome. -/
def findExtractedPier (_unpackPath : FsPath) : Except RErr (Option FsPath) :=
  .error .panicTodo

/-- Embeds PierState::new_from_pier_archive_inner, threading the filesystem
through every step.  Its first step repeats the create_dir of the meta
directory already performed by the outer constructor. -/
def newFromPierArchiveInner (env : Env) (fs : Fs) (input : FileContent)
    (result : PierState) (archivePath unpackPath : FsPath) :
    Fs × Except RErr PierState :=
  match fs.createDir result.metaPath with
  | .error e => (fs, .error e)
  | .ok fs1 =>
    match fs1.createNewFile archivePath input with
    | .error e => (fs1, .error e)
    | .ok fs2 =>
      match fs2.createDir unpackPath with
      | .error e => (fs2, .error e)
      | .ok fs3 =>
        match env.extract archivePath unpackPath fs3 with
        | (fs4, .error ef) => (fs4, .error (.external ef))
        | (fs4, .ok _count) =>
          match fs4.removeFile archivePath with
          | .error e => (fs4, .error e)
          | .ok fs5 =>
            match findExtractedPier unpackPath with
            | .error e => (fs5, .error e)
            | .ok none => (fs5, .error .invalidPierArchive)
            | .ok (some extractedPath) =>
              match fs5.renameDir extractedPath result.pierPath with
              | .error e => (fs5, .error e)
              | .ok fs6 =>
                match fs6.removeDirAll unpackPath with
                | .error e => (fs6, .error e)
                | .ok fs7 => (fs7, .ok result)

/-- Embeds PierState::new_from_pier_archive.  The freshly generated v4 UUID
is passed in as id.  On an inner error the question-mark operator returns
before the cleanup block, so the cleanup runs only on inner success; the
two cleanup removals discard their own errors. -/
def PierState.newFromPierArchive (env : Env) (fs : Fs) (input : FileContent)
    (id : String) : Fs × Except RErr PierState :=
  match harborDryDockPath fs with
  | .error e => (fs, .error e)
  | .ok dd =>
    let metaPath := dd ++ [id]
    match fs.createDir metaPath with
    | .error e => (fs, .error e)
    | .ok fs1 =>
      match FileLock.tryAcquire fs1 (lockfilePathGivenMeta metaPath) with
      | (fs2, none) => (fs2, .error (.anyhowMsg "failed to acquire lock on newly created pier"))
      | (fs2, some lock) =>
        let config : PierConfig :=
          { runtimeVersion := UrbitVersion.defaultVersion, id := id, name := none }
        let result : PierState :=
          { id := id, name := none, filelock := lock, config := config,
            metaPath := metaPath, dryDocked := true, comet := false,
            initialized := false }
        let archivePath := result.archivePathOf
        let unpackPath := result.unpackPathOf
        match newFromPierArchiveInner env fs2 input result archivePath unpackPath with
        | (fs3, .error e) => (fs3, .error e)
        | (fs3, .ok result2) =>
          let fs4 := if fs3.isFile archivePath then
              match fs3.removeFile archivePath with
              | .ok f => f
              | .error _ => fs3
            else fs3
          let fs5 := if fs4.isDir unpackPath then
              match fs4.removeDirAll unpackPath with
              | .ok f => f
              | .error _ => fs4
            else fs4
          (fs5, .ok { result2 with initialized := true })

/- ## Ship (src/ship.rs) -/

/-- A launched pier.  The opaque process handle is not represented; the
environment carries the kill primitive. -/
structure Ship where
  pier : PierState
  httpPort : Nat
  amesPort : Nat
  lensPort : Nat
deriving DecidableEq, Repr

/-- Embeds Ship::new with its declared parameter order (pier, http_port,
ames_port): reads the .http.ports descriptor inside the pier data directory
and extracts the loopback lens port. -/
def Ship.new (fs : Fs) (pier : PierState) (httpPort amesPort : Nat) :
    Except RErr Ship :=
  let portsfilePath := pier.pierPath ++ [".http.ports"]
  match fs.readToString portsfilePath with
  | .error e => .error e
  | .ok portsdesc =>
    match lensPortFromPortsdesc portsdesc with
    | some lensPort =>
      .ok { pier := pier, httpPort := httpPort, amesPort := amesPort, lensPort := lensPort }
    | none =>
      .error (.anyhowMsg ("could not decode .http.ports file: " ++ pathToString portsfilePath))

/-- The start mode selection inside launch: resume when initialized,
boot-comet when the comet flag is set, else boot from the keyfile, with the
unwrap of a missing name modelled as a panic outcome. -/
def startModeOf (p : PierState) : Except RErr StartMode :=
  if p.initialized then .ok (.resume p.pierPath)
  else if p.comet then .ok (.bootComet p.pierPath)
  else
    match p.name with
    | some n => .ok (.bootKeyfile p.keyfilePath n p.pierPath)
    | none => .error .panicUnwrapNone

/-- Embeds PierState::launch.  Allocation order follows the source: ames
port first (from the ames issuer), then http port (from the http issuer).
The call into Ship::new reproduces the source call site argument order
(self, proc, ames_port, http_port) against the declared parameter order
(pier, proc, http_port, ames_port). -/
def PierState.launch (env : Env) (fs : Fs)
    (httpIssuer amesIssuer : TcpPortIssuer)
    (availHttp availAmes : Nat → Bool) (p : PierState) :
    Fs × TcpPortIssuer × TcpPortIssuer × Except RErr Ship :=
  match amesIssuer.getPort availAmes with
  | (amesIssuer2, .error e) => (fs, httpIssuer, amesIssuer2, .error e)
  | (amesIssuer2, .ok amesPort) =>
    match httpIssuer.getPort availHttp with
    | (httpIssuer2, .error e) => (fs, httpIssuer2, amesIssuer2, .error e)
    | (httpIssuer2, .ok httpPort) =>
      match startModeOf p with
      | .error e => (fs, httpIssuer2, amesIssuer2, .error e)
      | .ok mode =>
        match env.exec mode httpPort amesPort fs with
        | .error ef => (fs, httpIssuer2, amesIssuer2, .error (.external ef))
        | .ok fs2 =>
          let p2 := { p with initialized := true }
          match Ship.new fs2 p2 amesPort httpPort with
          | .error e => (fs2, httpIssuer2, amesIssuer2, .error e)
          | .ok ship => (fs2, httpIssuer2, amesIssuer2, .ok ship)

/-- Embeds Ship::dojo: POST the expression to the loopback lens port and
require the response body to be a single JSON string. -/
def Ship.dojo (env : Env) (ship : Ship) (evalStr : String) : Except RErr String :=
  match env.dojoHttp ship.lensPort evalStr with
  | .error ef => .error (.external ef)
  | .ok none => .error .serdeDecode
  | .ok (some j) =>
    match j with
    | .str s => .ok s
    | _ => .error (.anyhowMsg "invalid response from urbit")

/-- Embeds Ship::shutdown: kill the process and hand the pier back. -/
def Ship.shutdown (env : Env) (ship : Ship) : Except RErr PierState :=
  match env.kill with
  | .error ef => .error (.external ef)
  | .ok _ => .ok ship.pier

/-- Embeds PierState::release_from_dry_dock: launch the pier, name it from
the trimmed control-channel response to "our", shut the ship down, then
rename the meta directory from the staging zone into the live zone under
that name. -/
def PierState.releaseFromDryDock (env : Env) (fs : Fs)
    (httpIssuer amesIssuer : TcpPortIssuer)
    (availHttp availAmes : Nat → Bool) (p : PierState) :
    Fs × TcpPortIssuer × TcpPortIssuer × Except RErr PierState :=
  match p.launch env fs httpIssuer amesIssuer availHttp availAmes with
  | (fs2, hI, aI, .error e) => (fs2, hI, aI, .error e)
  | (fs2, hI, aI, .ok ship) =>
    match Ship.dojo env ship "our" with
    | .error e => (fs2, hI, aI, .error e)
    | .ok ourStr =>
      let ship2 := { ship with pier :=
        { ship.pier with name := some (String.mk (trimChars ourStr.data)) } }
      match Ship.shutdown env ship2 with
      | .error e => (fs2, hI, aI, .error e)
      | .ok p2 =>
        match harborPortPath fs2 with
        | .error e => (fs2, hI, aI, .error e)
        | .ok pp =>
          match p2.name with
          | none => (fs2, hI, aI, .error .panicUnwrapNone)
          | some nm =>
            let newMetaPath := pp ++ [nm]
            let oldMetaPath := p2.metaPath
            let p3 := { p2 with metaPath := newMetaPath }
            match fs2.renameDir oldMetaPath newMetaPath with
            | .error e => (fs2, hI, aI, .error e)
            | .ok fs3 => (fs3, hI, aI, .ok { p3 with dryDocked := false })

deriving instance DecidableEq for Except

/- ## Helper lemmas -/

theorem firstAvail_some (avail : Nat → Bool) :
    ∀ (fuel s p : Nat), firstAvail avail s fuel = some p →
      s ≤ p ∧ p < s + fuel ∧ avail p = true ∧
      ∀ q, s ≤ q → q < p → avail q = false := by
  intro fuel
  induction fuel with
  | zero => intro s p h; simp [firstAvail] at h
  | succ n ih =>
    intro s p h
    unfold firstAvail at h
    by_cases ha : avail s = true
    · rw [ha] at h
      simp at h
      subst h
      refine ⟨Nat.le_refl _, by omega, ha, ?_⟩
      intro q h1 h2
      omega
    · rw [Bool.not_eq_true] at ha
      rw [ha] at h
      simp at h
      obtain ⟨h1, h2, h3, h4⟩ := ih (s + 1) p h
      refine ⟨by omega, by omega, h3, ?_⟩
      intro q hq1 hq2
      by_cases hq : q = s
      · subst hq; exact ha
      · exact h4 q (by omega) hq2

theorem firstAvail_none (avail : Nat → Bool) :
    ∀ (fuel s : Nat), (∀ q, s ≤ q → q < s + fuel → avail q = false) →
      firstAvail avail s fuel = none := by
  intro fuel
  induction fuel with
  | zero => intro s _; simp [firstAvail]
  | succ n ih =>
    intro s h
    unfold firstAvail
    rw [h s (Nat.le_refl _) (by omega)]
    simp
    exact ih (s + 1) (fun q h1 h2 => h q (by omega) (by omega))

theorem getPort_ok_characterization (avail : Nat → Bool) (iss : TcpPortIssuer)
    (p : Nat) (iss2 : TcpPortIssuer) (h : iss.getPort avail = (iss2, .ok p)) :
    iss.start ≤ p ∧ p < iss.stop ∧ avail p = true ∧
    (∀ q, iss.start ≤ q → q < p → avail q = false) ∧
    iss2 = { start := p + 1, stop := iss.stop } := by
  unfold TcpPortIssuer.getPort at h
  cases hf : firstAvail avail iss.start (iss.stop - iss.start) with
  | none => rw [hf] at h; simp at h
  | some p3 =>
    rw [hf] at h
    simp at h
    obtain ⟨hiss, hp⟩ := h
    subst hp
    obtain ⟨h1, h2, h3, h4⟩ := firstAvail_some avail _ _ _ hf
    by_cases hs : iss.stop ≤ iss.start
    · exfalso
      have : iss.stop - iss.start = 0 := by omega
      rw [this] at hf
      simp [firstAvail] at hf
    · refine ⟨h1, by omega, h3, h4, hiss.symm⟩

/-- Claim C4: every successful get_port call returns the first bindable
candidate at or after the cursor and advances the cursor past it, so a
subsequent successful call on the same issuer returns a strictly larger
port (no port is returned twice); a call on which no candidate from the
cursor to the range end is bindable fails with the no-ports-available
error. -/
theorem getPort_first_bindable_and_exhaustion (avail : Nat → Bool) (iss : TcpPortIssuer) :
    (∀ p iss2, iss.getPort avail = (iss2, .ok p) →
      iss.start ≤ p ∧ p < iss.stop ∧ avail p = true ∧
      (∀ q, iss.start ≤ q → q < p → avail q = false) ∧
      iss2 = { start := p + 1, stop := iss.stop } ∧
      (∀ avail2 p2 iss3, iss2.getPort avail2 = (iss3, .ok p2) → p < p2)) ∧
    ((∀ q, iss.start ≤ q → q < iss.stop → avail q = false) →
      iss.getPort avail =
        ({ start := max iss.start iss.stop, stop := iss.stop },
         .error (.anyhowMsg "no ports available!"))) := by
  constructor
  · intro p iss2 h
    obtain ⟨h1, h2, h3, h4, h5⟩ := getPort_ok_characterization avail iss p iss2 h
    refine ⟨h1, h2, h3, h4, h5, ?_⟩
    intro avail2 p2 iss3 h6
    obtain ⟨h7, _, _, _, _⟩ := getPort_ok_characterization avail2 iss2 p2 iss3 h6
    rw [h5] at h7
    simp at h7
    omega
  · intro hnone
    unfold TcpPortIssuer.getPort
    have : firstAvail avail iss.start (iss.stop - iss.start) = none := by
      apply firstAvail_none
      intro q hq1 hq2
      exact hnone q hq1 (by omega)
    rw [this]

/-- Closed instance of the C4 theorem: with candidates 9000 to 9009 and
only ports from 9002 bindable, get_port returns 9002 and the advanced
cursor, and the returned facts evaluate as stated. -/
theorem getPort_first_bindable_witness :
    TcpPortIssuer.getPort (fun q => decide (9002 ≤ q)) { start := 9000, stop := 9010 } =
      ({ start := 9003, stop := 9010 }, .ok 9002) ∧
    9000 ≤ 9002 ∧ 9002 < 9010 ∧ decide (9002 ≤ 9002) = true ∧
    (({ start := 9003, stop := 9010 } : TcpPortIssuer) =
      { start := 9002 + 1, stop := 9010 }) := by
  have h : TcpPortIssuer.getPort (fun q => decide (9002 ≤ q)) { start := 9000, stop := 9010 } =
      ({ start := 9003, stop := 9010 }, .ok 9002) := by decide
  obtain ⟨h1, h2, h3, _, h5, _⟩ :=
    (getPort_first_bindable_and_exhaustion (fun q => decide (9002 ≤ q))
      { start := 9000, stop := 9010 }).1 9002 { start := 9003, stop := 9010 } h
  exact ⟨h, h1, h2, h3, h5⟩

/-- Claim C5 fails on the code: UrbitV1_0 serializes to the string "v1.1"
(impl Into String in src/urbit.rs), which parses back to UrbitV1_1, so the
persisted-configuration round trip changes the runtime version at this
input; every field other than the version round-trips verbatim. -/
theorem urbit_version_roundtrip_bug :
    versionRoundTrip UrbitVersion.urbitV1_0 = some UrbitVersion.urbitV1_1 ∧
    configRoundTrip
        { runtimeVersion := UrbitVersion.urbitV1_0, id := "id-0", name := some "zod" } =
      some { runtimeVersion := UrbitVersion.urbitV1_1, id := "id-0", name := some "zod" } ∧
    UrbitVersion.urbitV1_1 ≠ UrbitVersion.urbitV1_0 := by
  refine ⟨by decide, by decide, by decide⟩

def fsLockFree : Fs := { dirs := [[]], files := [] }

def fsLockHeld : Fs := { dirs := [[]], files := [(["lockfile"], .blob 0)] }

/-- Claim C2, evaluated on the code: when the marker file exists,
try_acquire returns none (this half of the claim holds); when it does not
exist, try_acquire returns a held lock but leaves the filesystem unchanged
— the marker file still does not exist afterwards, because the
File::create future is dropped without being awaited — and a subsequent
release of that lock fails trying to remove the nonexistent marker. -/
theorem filelock_tryAcquire_marker_not_created :
    (FileLock.tryAcquire fsLockHeld ["lockfile"]).2 = none ∧
    FileLock.tryAcquire fsLockFree ["lockfile"] =
      (fsLockFree, some { path := ["lockfile"], released := false }) ∧
    (FileLock.tryAcquire fsLockFree ["lockfile"]).1.pathExists ["lockfile"] = false ∧
    (FileLock.releaseLock (FileLock.tryAcquire fsLockFree ["lockfile"]).1
        { path := ["lockfile"], released := false }).2 =
      .error (.ioNotFound ["lockfile"]) := by
  refine ⟨by decide, by decide, by decide, by decide⟩

/-- Claim C9: once the control-channel exchange completes with response
body parse result resp, the dojo call returns the string s exactly when
resp is the single JSON string s; a body that is not valid JSON fails with
the serde decode error, and a JSON body that is not a string fails with the
invalid-response message — every non-string body is a failure. -/
theorem dojo_single_json_string (env : Env) (ship : Ship) (evalStr : String)
    (resp : Option Json) (h : env.dojoHttp ship.lensPort evalStr = .ok resp) :
    (∀ s, Ship.dojo env ship evalStr = .ok s ↔ resp = some (.str s)) ∧
    (resp = none → Ship.dojo env ship evalStr = .error .serdeDecode) ∧
    (∀ j, resp = some j → (∀ s, j ≠ .str s) →
      Ship.dojo env ship evalStr = .error (.anyhowMsg "invalid response from urbit")) := by
  unfold Ship.dojo
  rw [h]
  refine ⟨?_, ?_, ?_⟩
  · intro s
    cases resp with
    | none => simp
    | some j => cases j <;> simp
  · intro hr; subst hr; rfl
  · intro j hj hns
    subst hj
    cases j with
    | str s => exact absurd rfl (hns s)
    | null => rfl
    | bool b => rfl
    | num n => rfl
    | arr l => rfl
    | obj l => rfl

def pierStub : PierState :=
  { id := "u0", name := none,
    config := { runtimeVersion := .urbitV1_9, id := "u0", name := none },
    metaPath := ["dry_dock", "u0"], dryDocked := true, initialized := false,
    comet := false,
    filelock := { path := ["dry_dock", "u0", "lockfile"], released := false } }

def envDojo : Env :=
  { extract := fun _ _ f => (f, .error (.fail "unused"))
    exec := fun _ _ _ _ => .error (.fail "unused")
    kill := .error (.fail "unused")
    dojoHttp := fun _ _ => .ok (some (.str "~zod")) }

def shipDojo : Ship :=
  { pier := pierStub, httpPort := 8300, amesPort := 4300, lensPort := 12321 }

/-- Closed instance of the C9 theorem: a response body that is the JSON
string "~zod" makes the dojo call return exactly "~zod". -/
theorem dojo_single_json_string_witness :
    envDojo.dojoHttp shipDojo.lensPort "our" = .ok (some (.str "~zod")) ∧
    Ship.dojo envDojo shipDojo "our" = .ok "~zod" := by
  have h : envDojo.dojoHttp shipDojo.lensPort "our" = .ok (some (.str "~zod")) := rfl
  exact ⟨h, ((dojo_single_json_string envDojo shipDojo "our"
    (some (.str "~zod")) h).1 "~zod").2 rfl⟩

theorem harborDryDockPath_ok (fs : Fs) (dd : FsPath)
    (h : harborDryDockPath fs = .ok dd) : dd = ["dry_dock"] := by
  unfold harborDryDockPath at h
  split at h
  · exact (Except.ok.injEq _ _ ▸ h).symm
  · exact absurd h (by simp)

theorem harborPortPath_ok (fs : Fs) (pp : FsPath)
    (h : harborPortPath fs = .ok pp) : pp = ["port"] := by
  unfold harborPortPath at h
  split at h
  · exact (Except.ok.injEq _ _ ▸ h).symm
  · exact absurd h (by simp)

theorem loadConfig_ok (fs : Fs) (metaPath : FsPath) (cfg : PierConfig)
    (h : loadConfig fs metaPath = .ok cfg) :
    fs.readFile (configPathGivenMeta metaPath) = .ok (.config cfg) := by
  unfold loadConfig at h
  split at h
  · exact absurd h (by simp)
  case _ heq =>
    rw [heq]
    simp at h
    rw [h]
  · exact absurd h (by simp)

theorem loadFromDryDock_ok (fs : Fs) (id : String) (st : PierState)
    (h : PierState.loadFromDryDock fs id = .ok st) :
    fs.readFile (configPathGivenMeta ["dry_dock", id]) = .ok (.config st.config) ∧
    st.config.id = id ∧
    st.initialized = fs.pathExists ["dry_dock", id, "pier"] ∧
    st.name = st.config.name ∧
    st.id = id ∧ st.metaPath = ["dry_dock", id] := by
  unfold PierState.loadFromDryDock at h
  split at h
  · exact absurd h (by simp)
  case _ dd hdd =>
    have hdd2 := harborDryDockPath_ok fs dd hdd
    subst hdd2
    dsimp only at h
    split at h
    · exact absurd h (by simp)
    · split at h
      · exact absurd h (by simp)
      case _ lock hlock =>
        split at h
        · exact absurd h (by simp)
        case _ cfg hcfg =>
          split at h
          · exact absurd h (by simp)
          case _ hid =>
            simp only [Except.ok.injEq] at h
            subst h
            simp only [bne_iff_ne, ne_eq, Decidable.not_not] at hid
            exact ⟨loadConfig_ok fs _ cfg hcfg, hid, rfl, rfl, rfl, rfl⟩

theorem readFile_ok_isFile (fs : Fs) (p : FsPath) (c : FileContent)
    (h : fs.readFile p = .ok c) : fs.isFile p = true := by
  unfold Fs.readFile at h
  split at h
  case _ e heq =>
    unfold Fs.isFile
    rw [List.any_eq_true]
    have hsome : (fs.files.find? (fun e => e.1 == p)).isSome := by rw [heq]; rfl
    rw [List.find?_isSome] at hsome
    obtain ⟨x, hx1, hx2⟩ := hsome
    exact ⟨x, hx1, hx2⟩
  · exact absurd h (by simp)

/-- Claim C10: a staging-zone load by identifier fails whenever the id in
the persisted configuration differs from the id encoding the directory
name, and on success the handle's initialized flag is set exactly from the
existence check of the pier data directory. -/
theorem load_from_dry_dock_id_check (fs : Fs) (id : String) :
    (∀ cfg, fs.readFile (configPathGivenMeta ["dry_dock", id]) = .ok (.config cfg) →
      cfg.id ≠ id → ∃ e, PierState.loadFromDryDock fs id = .error e) ∧
    (∀ st, PierState.loadFromDryDock fs id = .ok st →
      st.config.id = id ∧
      st.initialized = fs.pathExists ["dry_dock", id, "pier"]) := by
  constructor
  · intro cfg hcfg hne
    cases hres : PierState.loadFromDryDock fs id with
    | error e => exact ⟨e, rfl⟩
    | ok st =>
      exfalso
      obtain ⟨hread, hid, _, _, _, _⟩ := loadFromDryDock_ok fs id st hres
      rw [hcfg] at hread
      simp only [Except.ok.injEq, FileContent.config.injEq] at hread
      exact hne (hread ▸ hid)
  · intro st h
    obtain ⟨_, hid, hinit, _, _, _⟩ := loadFromDryDock_ok fs id st h
    exact ⟨hid, hinit⟩

def fsDryDock10 : Fs :=
  { dirs := [[], ["dry_dock"], ["dry_dock", "u1"]],
    files := [(["dry_dock", "u1", "config.json"],
               .config { runtimeVersion := .urbitV1_9, id := "u1", name := none })] }

def stDryDock10 : PierState :=
  { id := "u1", name := none,
    config := { runtimeVersion := .urbitV1_9, id := "u1", name := none },
    metaPath := ["dry_dock", "u1"], dryDocked := true, initialized := false,
    comet := false,
    filelock := { path := ["dry_dock", "u1", "lockfile"], released := false } }

/-- Closed instance of the C10 theorem: a successful staging-zone load of
a pier without a pier data directory yields initialized = false. -/
theorem load_from_dry_dock_id_check_witness :
    PierState.loadFromDryDock fsDryDock10 "u1" = .ok stDryDock10 ∧
    stDryDock10.config.id = "u1" ∧
    stDryDock10.initialized = fsDryDock10.pathExists ["dry_dock", "u1", "pier"] := by
  have h : PierState.loadFromDryDock fsDryDock10 "u1" = .ok stDryDock10 := by decide
  obtain ⟨h1, h2⟩ := (load_from_dry_dock_id_check fsDryDock10 "u1").2 stDryDock10 h
  exact ⟨h, h1, h2⟩

theorem loadFromPort_ok (fs : Fs) (name : String) (st : PierState)
    (h : PierState.loadFromPort fs name = .ok st) :
    fs.readFile (configPathGivenMeta ["port", name]) = .ok (.config st.config) ∧
    st.config.name = some name ∧
    st.name = some name ∧
    st.metaPath = ["port", name] := by
  unfold PierState.loadFromPort at h
  split at h
  · exact absurd h (by simp)
  case _ pp hpp =>
    have hpp2 := harborPortPath_ok fs pp hpp
    subst hpp2
    dsimp only at h
    split at h
    · exact absurd h (by simp)
    · split at h
      · exact absurd h (by simp)
      case _ lock hlock =>
        split at h
        · exact absurd h (by simp)
        case _ cfg hcfg =>
          split at h
          · exact absurd h (by simp)
          case _ configName hname =>
            split at h
            · exact absurd h (by simp)
            case _ hnm =>
              split at h
              · exact absurd h (by simp)
              case _ cfg2 hcfg2 =>
                split at h
                · exact absurd h (by simp)
                case _ hpier =>
                  simp only [Except.ok.injEq] at h
                  subst h
                  simp only [Except.ok.injEq] at hcfg2
                  subst hcfg2
                  simp only [bne_iff_ne, ne_eq, Decidable.not_not] at hnm
                  subst hnm
                  exact ⟨loadConfig_ok fs _ cfg hcfg, hname, rfl, rfl⟩

/-- Claim C8: a live-zone load by directory name can only succeed when the
persisted configuration exists, serde-decodes, and carries exactly the
directory name; so it fails when the configuration is missing, does not
parse, or carries no name or a different name — the persisted name is
never silently corrected — and on success the handle's name equals the
directory name. -/
theorem load_from_port_config_checks (fs : Fs) (name : String) :
    (fs.isFile (configPathGivenMeta ["port", name]) = false →
      ∃ e, PierState.loadFromPort fs name = .error e) ∧
    (∀ c, fs.readFile (configPathGivenMeta ["port", name]) = .ok c →
      (∀ cfg, c ≠ .config cfg) →
      ∃ e, PierState.loadFromPort fs name = .error e) ∧
    (∀ cfg, fs.readFile (configPathGivenMeta ["port", name]) = .ok (.config cfg) →
      cfg.name ≠ some name →
      ∃ e, PierState.loadFromPort fs name = .error e) ∧
    (∀ st, PierState.loadFromPort fs name = .ok st →
      st.name = some name ∧ st.config.name = some name ∧
      fs.readFile (configPathGivenMeta ["port", name]) = .ok (.config st.config)) := by
  refine ⟨?_, ?_, ?_, ?_⟩
  · intro hmiss
    cases hres : PierState.loadFromPort fs name with
    | error e => exact ⟨e, rfl⟩
    | ok st =>
      exfalso
      obtain ⟨hread, _, _, _⟩ := loadFromPort_ok fs name st hres
      rw [readFile_ok_isFile fs _ _ hread] at hmiss
      exact Bool.true_eq_false.mp hmiss
  · intro c hc hnc
    cases hres : PierState.loadFromPort fs name with
    | error e => exact ⟨e, rfl⟩
    | ok st =>
      exfalso
      obtain ⟨hread, _, _, _⟩ := loadFromPort_ok fs name st hres
      rw [hc] at hread
      simp only [Except.ok.injEq] at hread
      exact hnc st.config hread
  · intro cfg hcfg hne
    cases hres : PierState.loadFromPort fs name with
    | error e => exact ⟨e, rfl⟩
    | ok st =>
      exfalso
      obtain ⟨hread, hcname, _, _⟩ := loadFromPort_ok fs name st hres
      rw [hcfg] at hread
      simp only [Except.ok.injEq, FileContent.config.injEq] at hread
      exact hne (hread ▸ hcname)
  · intro st h
    obtain ⟨hread, hcname, hname, _⟩ := loadFromPort_ok fs name st h
    exact ⟨hname, hcname, hread⟩

def fsPort8 : Fs :=
  { dirs := [[], ["port"], ["port", "zod"], ["port", "zod", "pier"]],
    files := [(["port", "zod", "config.json"],
               .config { runtimeVersion := .urbitV1_9, id := "id8", name := some "zod" })] }

def stPort8 : PierState :=
  { id := "id8", name := some "zod",
    config := { runtimeVersion := .urbitV1_9, id := "id8", name := some "zod" },
    metaPath := ["port", "zod"], dryDocked := false, initialized := true,
    comet := false,
    filelock := { path := ["port", "zod", "lockfile"], released := false } }

/-- Closed instance of the C8 theorem: a successful live-zone load of the
pier directory named zod yields a handle whose name and persisted name are
both zod. -/
theorem load_from_port_config_checks_witness :
    PierState.loadFromPort fsPort8 "zod" = .ok stPort8 ∧
    stPort8.name = some "zod" ∧ stPort8.config.name = some "zod" := by
  have h : PierState.loadFromPort fsPort8 "zod" = .ok stPort8 := by decide
  obtain ⟨h1, h2, _⟩ := (load_from_port_config_checks fsPort8 "zod").2.2.2 stPort8 h
  exact ⟨h, h1, h2⟩

theorem head?_filter_eq_find? {α : Type} (p : α → Bool) (l : List α) :
    (l.filter p).head? = l.find? p := by
  induction l with
  | nil => rfl
  | cons a t ih =>
    by_cases hp : p a
    · simp [List.filter_cons, List.find?_cons, hp]
    · simp [List.filter_cons, List.find?_cons, hp, ih]

/-- Claim C7 amended: when the ports descriptor is readable, Ship
construction discovers the control port as the first whitespace-delimited
token, parsed as a port number, of the first line ending in the loopback
marker, and fails with the malformed-ports-descriptor error when no such
port is found; when the descriptor file is missing or unreadable,
construction fails with the propagated read error instead of the
malformed-ports-descriptor error. -/
theorem ship_new_portsdesc_amended (fs : Fs) (pier : PierState) (hp ap : Nat) :
    (∀ e, fs.readToString (pier.pierPath ++ [".http.ports"]) = .error e →
      Ship.new fs pier hp ap = .error e) ∧
    (∀ desc, fs.readToString (pier.pierPath ++ [".http.ports"]) = .ok desc →
      (∀ lp, lensPortFromPortsdesc desc = some lp →
        Ship.new fs pier hp ap =
          .ok { pier := pier, httpPort := hp, amesPort := ap, lensPort := lp }) ∧
      (lensPortFromPortsdesc desc = none →
        Ship.new fs pier hp ap =
          .error (.anyhowMsg ("could not decode .http.ports file: " ++
            pathToString (pier.pierPath ++ [".http.ports"]))))) ∧
    (∀ desc : String, lensPortFromPortsdesc desc =
      ((rustLines desc.data).find? (fun l => lineEndsWith l loopbackChars)).bind
        (fun l => ((splitAsciiWs l).head?).bind parseU16)) := by
  refine ⟨?_, ?_, ?_⟩
  · intro e he
    unfold Ship.new
    dsimp only
    rw [he]
  · intro desc hdesc
    constructor
    · intro lp hlp
      unfold Ship.new
      dsimp only
      rw [hdesc]
      dsimp only
      rw [hlp]
    · intro hlp
      unfold Ship.new
      dsimp only
      rw [hdesc]
      dsimp only
      rw [hlp]
  · intro desc
    unfold lensPortFromPortsdesc
    rw [List.head?_map, head?_filter_eq_find?]
    cases (rustLines desc.data).find? (fun l => lineEndsWith l loopbackChars) with
    | none => rfl
    | some l => rfl

def pierPorts7 : PierState :=
  { id := "u7", name := none,
    config := { runtimeVersion := .urbitV1_9, id := "u7", name := none },
    metaPath := ["dry_dock", "u7"], dryDocked := true, initialized := true,
    comet := false,
    filelock := { path := ["dry_dock", "u7", "lockfile"], released := false } }

def fsPorts7 : Fs :=
  { dirs := [[], ["dry_dock"], ["dry_dock", "u7"], ["dry_dock", "u7", "pier"]],
    files := [] }

/-- Claim C7 as stated is false at this input: the ports descriptor file is
missing, and Ship construction fails with the propagated io error, which is
not the malformed-ports-descriptor error the claim requires. -/
theorem portsdesc_missing_io_error_counterexample :
    Ship.new fsPorts7 pierPorts7 9000 9100 =
      .error (.ioNotFound ["dry_dock", "u7", "pier", ".http.ports"]) ∧
    RErr.ioNotFound ["dry_dock", "u7", "pier", ".http.ports"] ≠
      RErr.anyhowMsg ("could not decode .http.ports file: " ++
        pathToString ["dry_dock", "u7", "pier", ".http.ports"]) := by
  refine ⟨by decide, by decide⟩

def fsPorts7b : Fs :=
  { dirs := [[], ["dry_dock"], ["dry_dock", "u7"], ["dry_dock", "u7", "pier"]],
    files := [(["dry_dock", "u7", "pier", ".http.ports"],
               .text "12321 loopback")] }

/-- Closed instance of the C7 amended theorem: a descriptor whose only line
is "12321 loopback" yields lens port 12321. -/
theorem ship_new_portsdesc_amended_witness :
    fsPorts7b.readToString (pierPorts7.pierPath ++ [".http.ports"]) = .ok "12321 loopback" ∧
    lensPortFromPortsdesc "12321 loopback" = some 12321 ∧
    Ship.new fsPorts7b pierPorts7 9000 9100 =
      .ok { pier := pierPorts7, httpPort := 9000, amesPort := 9100, lensPort := 12321 } := by
  have h1 : fsPorts7b.readToString (pierPorts7.pierPath ++ [".http.ports"]) =
      .ok "12321 loopback" := by decide
  have h2 : lensPortFromPortsdesc "12321 loopback" = some 12321 := by decide
  exact ⟨h1, h2,
    ((ship_new_portsdesc_amended fsPorts7b pierPorts7 9000 9100).2.1
      "12321 loopback" h1).1 12321 h2⟩

/-- Claim C1: whenever the freshly generated pier directory does not
pre-exist (the id is a fresh v4 UUID), the archive-based constructor
returns a filesystem in which neither the scratch archive file nor the
scratch unpack directory exists, whatever the outcome.  In this code every
call fails before creating any scratch entry: the inner function repeats
the create_dir of the meta directory already performed by the outer
constructor, so it always returns AlreadyExists first, and although the
question-mark operator skips the cleanup block on that error path, no
scratch entry has been created at any return point. -/
theorem archive_ctor_scratch_cleanup (env : Env) (fs : Fs) (input : FileContent)
    (id : String)
    (h1 : fs.pathExists ["dry_dock", id] = false)
    (h2 : fs.pathExists ["dry_dock", id, "lockfile"] = false)
    (h3 : fs.isFile ["dry_dock", id, "archive"] = false)
    (h4 : fs.isDir ["dry_dock", id, "unpack"] = false) :
    (PierState.newFromPierArchive env fs input id).1.isFile ["dry_dock", id, "archive"] = false ∧
    (PierState.newFromPierArchive env fs input id).1.isDir ["dry_dock", id, "unpack"] = false := by
  unfold PierState.newFromPierArchive
  cases hdd : fs.isDir ["dry_dock"] with
  | false =>
    simp only [harborDryDockPath, hdd, Bool.false_eq_true, if_false]
    exact ⟨h3, h4⟩
  | true =>
    simp only [harborDryDockPath, hdd, if_true]
    try dsimp only
    have hmeta : (["dry_dock"] ++ [id] : FsPath) = ["dry_dock", id] := rfl
    rw [hmeta]
    have hcd : fs.createDir ["dry_dock", id] =
        .ok { fs with dirs := ["dry_dock", id] :: fs.dirs } := by
      unfold Fs.createDir
      rw [h1]
      have hdl : (["dry_dock", id] : FsPath).dropLast = ["dry_dock"] := rfl
      rw [hdl, hdd]
      simp
    rw [hcd]
    try dsimp only
    have hex : Fs.pathExists { fs with dirs := ["dry_dock", id] :: fs.dirs }
        ["dry_dock", id, "lockfile"] = false := by
      unfold Fs.pathExists Fs.isDir Fs.isFile at h2 ⊢
      simp only [List.contains_cons]
      simp only [Bool.or_eq_false_iff] at h2 ⊢
      refine ⟨⟨?_, h2.1⟩, h2.2⟩
      show ((["dry_dock", id, "lockfile"] : FsPath) == ["dry_dock", id]) = false
      rw [beq_eq_false_iff_ne]
      simp
    have hlock : FileLock.tryAcquire { fs with dirs := ["dry_dock", id] :: fs.dirs }
        (lockfilePathGivenMeta ["dry_dock", id]) =
        ({ fs with dirs := ["dry_dock", id] :: fs.dirs },
         some { path := ["dry_dock", id, "lockfile"], released := false }) := by
      unfold FileLock.tryAcquire
      rw [show lockfilePathGivenMeta ["dry_dock", id] = ["dry_dock", id, "lockfile"] from rfl]
      rw [hex]
      simp
    rw [hlock]
    try dsimp only
    simp only [PierState.archivePathOf, PierState.unpackPathOf]
    try dsimp only
    have hexmeta : Fs.pathExists { fs with dirs := ["dry_dock", id] :: fs.dirs }
        ["dry_dock", id] = true := by
      unfold Fs.pathExists Fs.isDir
      simp [List.contains_cons]
    have hinner : newFromPierArchiveInner env { fs with dirs := ["dry_dock", id] :: fs.dirs }
        input
        { id := id, name := none,
          filelock := { path := ["dry_dock", id, "lockfile"], released := false },
          config := { runtimeVersion := UrbitVersion.defaultVersion, id := id, name := none },
          metaPath := ["dry_dock", id], dryDocked := true, comet := false,
          initialized := false }
        (["dry_dock", id] ++ ["archive"]) (["dry_dock", id] ++ ["unpack"]) =
        ({ fs with dirs := ["dry_dock", id] :: fs.dirs },
         .error (.ioAlreadyExists ["dry_dock", id])) := by
      unfold newFromPierArchiveInner
      unfold Fs.createDir
      dsimp only
      rw [hexmeta]
      simp
    rw [hinner]
    try dsimp only
    constructor
    · exact h3
    · unfold Fs.isDir at h4 ⊢
      simp only [List.contains_cons]
      simp only [Bool.or_eq_false_iff]
      refine ⟨?_, h4⟩
      show ((["dry_dock", id, "unpack"] : FsPath) == ["dry_dock", id]) = false
      rw [beq_eq_false_iff_ne]
      simp

def envArchive1 : Env :=
  { extract := fun _ _ f => (f, .error (.fail "unused"))
    exec := fun _ _ _ _ => .error (.fail "unused")
    kill := .error (.fail "unused")
    dojoHttp := fun _ _ => .error (.fail "unused") }

def fsArchive1 : Fs := { dirs := [[], ["dry_dock"], ["port"]], files := [] }

/-- Closed instance of the C1 theorem at a concrete fresh pier id inside a
concrete harbor. -/
theorem archive_ctor_scratch_cleanup_witness :
    fsArchive1.pathExists ["dry_dock", "u1a"] = false ∧
    fsArchive1.pathExists ["dry_dock", "u1a", "lockfile"] = false ∧
    fsArchive1.isFile ["dry_dock", "u1a", "archive"] = false ∧
    fsArchive1.isDir ["dry_dock", "u1a", "unpack"] = false ∧
    ((PierState.newFromPierArchive envArchive1 fsArchive1 (.blob 7) "u1a").1.isFile
        ["dry_dock", "u1a", "archive"] = false ∧
      (PierState.newFromPierArchive envArchive1 fsArchive1 (.blob 7) "u1a").1.isDir
        ["dry_dock", "u1a", "unpack"] = false) := by
  refine ⟨by decide, by decide, by decide, by decide, ?_⟩
  exact archive_ctor_scratch_cleanup envArchive1 fsArchive1 (.blob 7) "u1a"
    (by decide) (by decide) (by decide) (by decide)

def availAll : Nat → Bool := fun _ => true

def pierC6 : PierState :=
  { id := "u6", name := none,
    config := { runtimeVersion := .urbitV1_9, id := "u6", name := none },
    metaPath := ["dry_dock", "u6"], dryDocked := true, initialized := true,
    comet := false,
    filelock := { path := ["dry_dock", "u6", "lockfile"], released := false } }

def fsC6 : Fs := { dirs := [[], ["dry_dock"], ["port"], ["dry_dock", "u6"]], files := [] }

def envC6 : Env :=
  { extract := fun _ _ f => (f, .error (.fail "unused"))
    exec := fun _ _ _ f =>
      .ok { f with dirs := ["dry_dock", "u6", "pier"] :: f.dirs,
                   files := (["dry_dock", "u6", "pier", ".http.ports"],
                             .text "12321 loopback") :: f.files }
    kill := .ok ()
    dojoHttp := fun _ _ => .ok (some (.str "~zod")) }

def shipC6 : Ship :=
  { pier := pierC6, httpPort := 9100, amesPort := 9000, lensPort := 12321 }

/-- Claim C6 fails on the code: launching with the service (http) issuer
over 9000..9010 and the peer (ames) issuer over 9100..9110, with every
candidate bindable, yields a Ship recording 9100 — the first port of the
peer range — as its primary service port and 9000 — the first port of the
service range — as its peer port, because the launch call site passes
(ames_port, http_port) to the Ship constructor whose declared parameter
order is (http_port, ames_port). -/
theorem launch_port_swap_bug :
    (PierState.launch envC6 fsC6 { start := 9000, stop := 9010 }
        { start := 9100, stop := 9110 } availAll availAll pierC6).2.2.2 =
      .ok shipC6 ∧
    shipC6.httpPort = 9100 ∧ ¬(shipC6.httpPort < 9010) ∧
    shipC6.amesPort = 9000 ∧ ¬(9100 ≤ shipC6.amesPort) := by
  refine ⟨by decide, by decide, by decide, by decide, by decide⟩

theorem getPort_error_shape (avail : Nat → Bool) (iss iss2 : TcpPortIssuer) (e : RErr)
    (h : iss.getPort avail = (iss2, .error e)) :
    e = .anyhowMsg "no ports available!" := by
  unfold TcpPortIssuer.getPort at h
  cases hf : firstAvail avail iss.start (iss.stop - iss.start) with
  | some p => rw [hf] at h; simp at h
  | none =>
    rw [hf] at h
    simp only [Prod.mk.injEq, Except.error.injEq] at h
    exact h.2.symm

theorem readFile_error_shape (fs : Fs) (p : FsPath) (e : RErr)
    (h : fs.readFile p = .error e) : e = .ioNotFound p := by
  unfold Fs.readFile at h
  split at h
  · exact absurd h (by simp)
  · simp only [Except.error.injEq] at h
    exact h.symm

theorem readToString_error_shape (fs : Fs) (p : FsPath) (e : RErr)
    (h : fs.readToString p = .error e) :
    e = .ioInvalidData p ∨ e = .ioNotFound p := by
  unfold Fs.readToString at h
  split at h
  · exact absurd h (by simp)
  · simp only [Except.error.injEq] at h
    exact Or.inl h.symm
  case _ e2 heq =>
    simp only [Except.error.injEq] at h
    exact Or.inr (h ▸ readFile_error_shape fs p e2 heq)

theorem shipNew_error_no_illegal (fs : Fs) (pier : PierState) (hp ap : Nat) (e : RErr)
    (h : Ship.new fs pier hp ap = .error e) :
    e ≠ .illegalStateTransition := by
  unfold Ship.new at h
  dsimp only at h
  split at h
  case _ e2 heq =>
    simp only [Except.error.injEq] at h
    subst h
    rcases readToString_error_shape fs _ e2 heq with h1 | h1 <;> subst h1 <;> simp
  case _ desc hdesc =>
    split at h
    · exact absurd h (by simp)
    · simp only [Except.error.injEq] at h
      subst h
      simp

theorem renameDir_error_shape (fs : Fs) (oldP newP : FsPath) (e : RErr)
    (h : fs.renameDir oldP newP = .error e) :
    e = .ioAlreadyExists newP ∨ e = .ioNotFound newP.dropLast ∨ e = .ioNotFound oldP := by
  unfold Fs.renameDir at h
  split at h
  · split at h
    · simp only [Except.error.injEq] at h
      exact Or.inl h.symm
    · split at h
      · exact absurd h (by simp)
      · simp only [Except.error.injEq] at h
        exact Or.inr (Or.inl h.symm)
  · simp only [Except.error.injEq] at h
    exact Or.inr (Or.inr h.symm)

theorem harborPortPath_error_shape (fs : Fs) (e : RErr)
    (h : harborPortPath fs = .error e) :
    e = .anyhowMsg ("Harbor port path is not a directory: " ++ pathToString ["port"]) := by
  unfold harborPortPath at h
  split at h
  · exact absurd h (by simp)
  · simp only [Except.error.injEq] at h
    exact h.symm

theorem dojo_error_no_illegal (env : Env) (ship : Ship) (evalStr : String) (e : RErr)
    (h : Ship.dojo env ship evalStr = .error e) :
    e ≠ .illegalStateTransition := by
  unfold Ship.dojo at h
  split at h
  · simp only [Except.error.injEq] at h
    subst h
    simp
  · simp only [Except.error.injEq] at h
    subst h
    simp
  · split at h
    · exact absurd h (by simp)
    · simp only [Except.error.injEq] at h
      subst h
      simp

theorem startModeOf_error_shape (p : PierState) (e : RErr)
    (h : startModeOf p = .error e) : e = .panicUnwrapNone := by
  unfold startModeOf at h
  split at h
  · exact absurd h (by simp)
  · split at h
    · exact absurd h (by simp)
    · split at h
      · exact absurd h (by simp)
      · simp only [Except.error.injEq] at h
        exact h.symm

theorem launch_no_illegal_state (env : Env) (fs : Fs)
    (hI aI : TcpPortIssuer) (aH aA : Nat → Bool) (p : PierState) :
    (p.launch env fs hI aI aH aA).2.2.2 ≠ .error .illegalStateTransition := by
  intro hc
  unfold PierState.launch at hc
  split at hc
  · rename_i aI2 e h1
    dsimp only at hc
    simp only [Except.error.injEq] at hc
    subst hc
    exact absurd (getPort_error_shape aA aI aI2 _ h1) (by simp)
  · rename_i aI2 amesPort h1
    split at hc
    · rename_i hI2 e h2
      dsimp only at hc
      simp only [Except.error.injEq] at hc
      subst hc
      exact absurd (getPort_error_shape aH hI hI2 _ h2) (by simp)
    · rename_i hI2 httpPort h2
      split at hc
      · rename_i e hmode
        dsimp only at hc
        simp only [Except.error.injEq] at hc
        subst hc
        exact absurd (startModeOf_error_shape p _ hmode) (by simp)
      · rename_i mode hmode
        split at hc
        · rename_i ef hexec
          dsimp only at hc
          simp only [Except.error.injEq] at hc
          exact RErr.noConfusion hc.symm
        · rename_i fs2 hexec
          dsimp only at hc
          split at hc
          · rename_i e hsn
            dsimp only at hc
            simp only [Except.error.injEq] at hc
            subst hc
            exact shipNew_error_no_illegal fs2 _ amesPort httpPort _ hsn rfl
          · rename_i ship hsn
            exact absurd hc (by simp)

theorem shutdown_error_shape (env : Env) (ship : Ship) (e : RErr)
    (h : Ship.shutdown env ship = .error e) : ∃ ef, e = .external ef := by
  unfold Ship.shutdown at h
  split at h
  · rename_i ef hk
    simp only [Except.error.injEq] at h
    exact ⟨ef, h.symm⟩
  · exact absurd h (by simp)

/-- Claim C3 amended: release_from_dry_dock performs no initialized
precondition check: on a pier with initialized = false it never fails with
an illegal-state error — it instead launches the pier (booting it), names
it from the trimmed control-channel response, shuts it down and renames
its directory from the staging zone into the live zone — and whenever it
succeeds the returned handle is no longer staging-resident. -/
theorem release_from_dry_dock_no_illegal_state (env : Env) (fs : Fs)
    (hI aI : TcpPortIssuer) (aH aA : Nat → Bool) (p : PierState)
    (hinit : p.initialized = false) :
    (p.releaseFromDryDock env fs hI aI aH aA).2.2.2 ≠
      Except.error RErr.illegalStateTransition ∧
    (∀ p2, (p.releaseFromDryDock env fs hI aI aH aA).2.2.2 = .ok p2 →
      p2.dryDocked = false) := by
  constructor
  · intro hc
    unfold PierState.releaseFromDryDock at hc
    split at hc
    · rename_i fs2 hI2 aI2 e hl
      dsimp only at hc
      simp only [Except.error.injEq] at hc
      subst hc
      have hli := launch_no_illegal_state env fs hI aI aH aA p
      rw [hl] at hli
      exact hli rfl
    · rename_i fs2 hI2 aI2 ship hl
      split at hc
      · rename_i e hd
        dsimp only at hc
        simp only [Except.error.injEq] at hc
        subst hc
        exact dojo_error_no_illegal env ship "our" _ hd rfl
      · rename_i ourStr hd
        dsimp only at hc
        split at hc
        · rename_i e hk
          dsimp only at hc
          simp only [Except.error.injEq] at hc
          subst hc
          obtain ⟨ef, hef⟩ := shutdown_error_shape env _ _ hk
          exact RErr.noConfusion hef
        · rename_i p2 hk
          split at hc
          · rename_i e hpp
            dsimp only at hc
            simp only [Except.error.injEq] at hc
            subst hc
            exact absurd (harborPortPath_error_shape fs2 _ hpp) (by simp)
          · rename_i pp hpp
            split at hc
            · dsimp only at hc
              simp only [Except.error.injEq] at hc
              exact RErr.noConfusion hc
            · rename_i nm hnm
              split at hc
              · rename_i e hrn
                dsimp only at hc
                simp only [Except.error.injEq] at hc
                subst hc
                rcases renameDir_error_shape fs2 _ _ _ hrn with h1 | h1 | h1 <;>
                  exact RErr.noConfusion h1
              · rename_i fs3 hrn
                exact absurd hc (by simp)
  · intro p2 h
    unfold PierState.releaseFromDryDock at h
    split at h
    · exact absurd h (by simp)
    · rename_i fs2 hI2 aI2 ship hl
      split at h
      · exact absurd h (by simp)
      · rename_i ourStr hd
        dsimp only at h
        split at h
        · exact absurd h (by simp)
        · rename_i p3 hk
          split at h
          · exact absurd h (by simp)
          · rename_i pp hpp
            split at h
            · exact absurd h (by simp)
            · rename_i nm hnm
              split at h
              · exact absurd h (by simp)
              · rename_i fs3 hrn
                simp only [Except.ok.injEq] at h
                subst h
                rfl

def pierC3 : PierState :=
  { id := "u3", name := some "zod",
    config := { runtimeVersion := .urbitV1_9, id := "u3", name := some "zod" },
    metaPath := ["dry_dock", "u3"], dryDocked := true, initialized := false,
    comet := false,
    filelock := { path := ["dry_dock", "u3", "lockfile"], released := false } }

def fsC3 : Fs := { dirs := [[], ["dry_dock"], ["port"], ["dry_dock", "u3"]], files := [] }

def envC3 : Env :=
  { extract := fun _ _ f => (f, .error (.fail "unused"))
    exec := fun _ _ _ f =>
      .ok { f with dirs := ["dry_dock", "u3", "pier"] :: f.dirs,
                   files := (["dry_dock", "u3", "pier", ".http.ports"],
                             .text "12321 loopback") :: f.files }
    kill := .ok ()
    dojoHttp := fun _ _ => .ok (some (.str "~zod")) }

def pierC3Final : PierState :=
  { id := "u3", name := some "~zod",
    config := { runtimeVersion := .urbitV1_9, id := "u3", name := some "zod" },
    metaPath := ["port", "~zod"], dryDocked := false, initialized := true,
    comet := false,
    filelock := { path := ["dry_dock", "u3", "lockfile"], released := false } }

/-- Claim C3 as stated is false at this input: releasing an uninitialized
keyfile-provisioned pier from the dry dock does not fail with an
illegal-state error — the call boots the pier, names it from the control
channel response, succeeds — and the filesystem is mutated (the pier
directory moves from the staging zone into the live zone). -/
theorem release_from_dry_dock_uninitialized_counterexample :
    pierC3.initialized = false ∧
    (pierC3.releaseFromDryDock envC3 fsC3 { start := 9000, stop := 9010 }
        { start := 9100, stop := 9110 } availAll availAll).2.2.2 = .ok pierC3Final ∧
    (pierC3.releaseFromDryDock envC3 fsC3 { start := 9000, stop := 9010 }
        { start := 9100, stop := 9110 } availAll availAll).2.2.2 ≠
      Except.error RErr.illegalStateTransition ∧
    (pierC3.releaseFromDryDock envC3 fsC3 { start := 9000, stop := 9010 }
        { start := 9100, stop := 9110 } availAll availAll).1 ≠ fsC3 := by
  refine ⟨by decide, by decide, by decide, by decide⟩

/-- Closed instance of the C3 amended theorem at the counterexample
input. -/
theorem release_from_dry_dock_no_illegal_state_witness :
    pierC3.initialized = false ∧
    (pierC3.releaseFromDryDock envC3 fsC3 { start := 9000, stop := 9010 }
        { start := 9100, stop := 9110 } availAll availAll).2.2.2 ≠
      Except.error RErr.illegalStateTransition ∧
    pierC3Final.dryDocked = false := by
  refine ⟨by decide, ?_, ?_⟩
  · exact (release_from_dry_dock_no_illegal_state envC3 fsC3
      { start := 9000, stop := 9010 } { start := 9100, stop := 9110 }
      availAll availAll pierC3 (by decide)).1
  · exact (release_from_dry_dock_no_illegal_state envC3 fsC3
      { start := 9000, stop := 9010 } { start := 9100, stop := 9110 }
      availAll availAll pierC3 (by decide)).2 pierC3Final (by decide)
